import Mathlib

set_option maxHeartbeats 1000000

/-!
Verification of the log parsing, classification and correlation core of
`test_environment/scripts/analyze_logs.py` (ESP32 Word Clock test-log
analyzer).  Lines are modelled as lists of characters; the Python regular
expressions are embedded as deterministic character-level matchers (the
patterns involved admit no backtracking, so greedy scanning is exact).
Character classes are the ASCII restrictions of Python's Unicode classes;
the log lines the program consumes are ASCII.
-/

abbrev Str : Type := List Char

/-- ASCII digit class, Python regex class d. -/
def pyDigit (c : Char) : Bool := c.isDigit

/-- ASCII word-character class, Python regex class w. -/
def pyWord (c : Char) : Bool := c.isAlphanum || c == '_'

/-- ASCII whitespace class, Python regex class s / str.strip default. -/
def pyWhite (c : Char) : Bool :=
  c == ' ' || c == '\t' || c == '\n' || c == '\r' || c == '\x0b' || c == '\x0c'

/-- Python str.strip(): remove leading and trailing whitespace. -/
def pyStrip (l : Str) : Str :=
  ((l.dropWhile pyWhite).reverse.dropWhile pyWhite).reverse

/-- Python str.lower() restricted to ASCII. -/
def pyLower (l : Str) : Str := l.map Char.toLower

/-- Helper for pySplit: accumulate the current token (reversed). -/
def splitAux : Str → Str → List Str
  | [], acc => if acc = [] then [] else [acc.reverse]
  | c :: rest, acc =>
    if pyWhite c then
      if acc = [] then splitAux rest [] else acc.reverse :: splitAux rest []
    else splitAux rest (c :: acc)

/-- Python str.split() with no argument: split on whitespace runs,
dropping empty tokens. -/
def pySplit (l : Str) : List Str := splitAux l []

/-- Whether the first list is an initial segment of the second. -/
def headMatch : Str → Str → Bool
  | [], _ => true
  | _ :: _, [] => false
  | x :: xs, y :: ys => (x == y) && headMatch xs ys

/-- Python substring containment `a in b`: `a` occurs contiguously in `b`.
The empty list occurs in everything. -/
def occursIn (a b : Str) : Bool :=
  match b with
  | [] => a.isEmpty
  | _ :: t => headMatch a b || occursIn a t

/-- Drop a literal pattern from the front of a list, or fail. -/
def dropLit : Str → Str → Option Str
  | [], l => some l
  | _ :: _, [] => none
  | c :: cs, d :: ds => if c == d then dropLit cs ds else none

/-- Attempt to match the device-stream structured-log pattern
`([EWID]) ((d+)) (w+): (.+)` anchored at the head of the list
(the pattern is written here with its literal spaces and parentheses as in
the source regex).  Returns (severity code, timestamp digits, tag, message).
The groups are greedy; no backtracking can succeed for this pattern, so the
deterministic maximal-munch scan below is exactly Python's semantics. -/
def espMatchHere (l : Str) : Option (Char × Str × Str × Str) :=
  match l with
  | c :: ' ' :: '(' :: rest =>
    if c = 'E' ∨ c = 'W' ∨ c = 'I' ∨ c = 'D' then
      let ds := rest.takeWhile pyDigit
      let rest2 := rest.dropWhile pyDigit
      if ds = [] then none else
      match rest2 with
      | ')' :: ' ' :: rest3 =>
        let ws := rest3.takeWhile pyWord
        let rest4 := rest3.dropWhile pyWord
        if ws = [] then none else
        match rest4 with
        | ':' :: ' ' :: rest5 =>
          let ms := rest5.takeWhile (fun d => d ≠ '\n')
          if ms = [] then none else some (c, ds, ws, ms)
        | _ => none
      | _ => none
    else none
  | _ => none

/-- Python re.search of the structured-log pattern: leftmost position at
which the anchored match succeeds. -/
def espSearch : Str → Option (Char × Str × Str × Str)
  | [] => none
  | c :: t =>
    match espMatchHere (c :: t) with
    | some r => some r
    | none => espSearch t

/-- Attempt to match the bus-stream pattern `[MQTT] (topic) (payload)`
anchored at the head: the literal marker followed by a space, a nonempty
run of non-whitespace characters (the topic), one space, and a nonempty
remainder (the payload, greedy to end of line). -/
def mqttMatchHere (l : Str) : Option (Str × Str) :=
  match dropLit ("[MQTT] ".data) l with
  | none => none
  | some rest =>
    let tok := rest.takeWhile (fun c => !(pyWhite c))
    let rest2 := rest.dropWhile (fun c => !(pyWhite c))
    if tok = [] then none else
    match rest2 with
    | ' ' :: rest3 =>
      let pay := rest3.takeWhile (fun d => d ≠ '\n')
      if pay = [] then none else some (tok, pay)
    | _ => none

/-- Python re.search of the bus-stream pattern. -/
def mqttSearch : Str → Option (Str × Str)
  | [] => none
  | c :: t =>
    match mqttMatchHere (c :: t) with
    | some r => some r
    | none => mqttSearch t

/-!
Data model.  The record types mirror the dictionaries built by
`analyze_serial_log` and `analyze_mqtt_log`; insertion-ordered Python
dictionaries (`defaultdict(list)`) are modelled as association lists in
which a new key is appended at the end and an existing key's sequence is
extended in place.
-/

/-- One parsed device-stream record: the dict
`(timestamp, tag, message)` built from a structured-log match. -/
structure EntryS where
  timestamp : Str
  tag : Str
  message : Str
deriving DecidableEq

/-- One parsed bus-stream record: the dict `(topic, payload, timestamp)`;
the timestamp is the wall-clock observation time. -/
structure EntryM where
  topic : Str
  payload : Str
  timestamp : Str
deriving DecidableEq

/-- Append a record under a key of an insertion-ordered multimap:
`results[key].append(e)` on a `defaultdict(list)`. -/
def addToTagMap {α : Type} : List (Str × List α) → Str → α → List (Str × List α)
  | [], key, e => [(key, [e])]
  | (t, es) :: rest, key, e =>
    if t = key then (t, es ++ [e]) :: rest
    else (t, es) :: addToTagMap rest key e

/-- Concatenation of all per-key sequences of an insertion-ordered
multimap, keys in insertion order. -/
def tagConcat {α : Type} (m : List (Str × List α)) : List α :=
  m.foldr (fun p acc => p.2 ++ acc) []

/-- The results dictionary of `analyze_serial_log`.  `timestamps` is
declared by the source and never filled. -/
structure SerialResults where
  total_lines : Nat
  errors : List EntryS
  warnings : List EntryS
  info_messages : List EntryS
  esp_logs : List (Str × List EntryS)
  reboots : List Str
  timestamps : List Str
deriving DecidableEq

def serialInit : SerialResults := ⟨0, [], [], [], [], [], []⟩

/-- Placement of a matched entry in the severity list selected by the
matched code: E, W or I (a matched D selects no severity list). -/
def sevUpdate (r : SerialResults) (lv : Char) (e : EntryS) : SerialResults :=
  if lv = 'E' then { r with errors := r.errors ++ [e] }
  else if lv = 'W' then { r with warnings := r.warnings ++ [e] }
  else if lv = 'I' then { r with info_messages := r.info_messages ++ [e] }
  else r

/-- The structured-log branch of the per-line loop of
`analyze_serial_log`: on a regex match, build the entry with the stripped
message, place it in its severity list and append it to the per-tag
index. -/
def serialClassify (r : SerialResults) (line : Str) : SerialResults :=
  match espSearch line with
  | some (lv, ts, tag, msg0) =>
    let e : EntryS := ⟨ts, tag, pyStrip msg0⟩
    let r1 := sevUpdate r lv e
    { r1 with esp_logs := addToTagMap r1.esp_logs tag e }
  | none => r

/-- The reboot branch of the per-line loop: checked on every line,
independently of the structured-log match. -/
def serialReboot (r : SerialResults) (line : Str) : SerialResults :=
  if occursIn ("ESP-ROM:esp32".data) line || occursIn ("Rebooting...".data) line
  then { r with reboots := r.reboots ++ [pyStrip line] }
  else r

/-- One iteration of the `analyze_serial_log` loop body. -/
def serialStep (r : SerialResults) (line : Str) : SerialResults :=
  serialReboot (serialClassify { r with total_lines := r.total_lines + 1 } line) line

def serialResultsOf (lines : List Str) : SerialResults :=
  lines.foldl serialStep serialInit

/-- Result of `analyze_serial_log`: the error dict
`(error: Serial log not found)` when the file is absent, the results
dict otherwise.  File availability is modelled by an Option input. -/
inductive SerialOut where
  | unavailable
  | ok (r : SerialResults)
deriving DecidableEq

def analyze_serial_log : Option (List Str) → SerialOut
  | none => SerialOut.unavailable
  | some lines => SerialOut.ok (serialResultsOf lines)

/-- The results dictionary of `analyze_mqtt_log`.  `responses_received`
is declared by the source and never filled. -/
structure MqttResults where
  total_messages : Nat
  topics : List (Str × List EntryM)
  commands_sent : List EntryM
  responses_received : List EntryM
  home_assistant_configs : Nat
  status_messages : List EntryM
deriving DecidableEq

def mqttInit : MqttResults := ⟨0, [], [], [], 0, []⟩

/-- The if/elif categorization of a parsed bus entry by topic substring:
command takes priority over status, which takes priority over the
configuration namespace (which is only counted). -/
def mqttCategorize (r : MqttResults) (e : EntryM) : MqttResults :=
  if occursIn ("/command".data) e.topic then
    { r with commands_sent := r.commands_sent ++ [e] }
  else if occursIn ("/status".data) e.topic then
    { r with status_messages := r.status_messages ++ [e] }
  else if occursIn ("homeassistant/".data) e.topic then
    { r with home_assistant_configs := r.home_assistant_configs + 1 }
  else r

/-- One iteration of the `analyze_mqtt_log` loop body.  `datetime.now()`
is modelled by an ambient clock indexed by the number of entries parsed so
far (threaded as the second state component); each parsed entry consumes
one clock reading. -/
def mqttStep (clock : Nat → Str) (s : MqttResults × Nat) (line : Str) :
    MqttResults × Nat :=
  if occursIn ("[MQTT]".data) line then
    let r0 := { s.1 with total_messages := s.1.total_messages + 1 }
    match mqttSearch line with
    | some (topic, payload0) =>
      let e : EntryM := ⟨topic, pyStrip payload0, clock s.2⟩
      (mqttCategorize { r0 with topics := addToTagMap r0.topics topic e } e, s.2 + 1)
    | none => (r0, s.2)
  else s

def mqttResultsOf (clock : Nat → Str) (lines : List Str) : MqttResults :=
  (lines.foldl (mqttStep clock) (mqttInit, 0)).1

/-- Result of `analyze_mqtt_log` (error dict when the file is absent). -/
inductive MqttOut where
  | unavailable
  | ok (r : MqttResults)
deriving DecidableEq

def analyze_mqtt_log (clock : Nat → Str) : Option (List Str) → MqttOut
  | none => MqttOut.unavailable
  | some lines => MqttOut.ok (mqttResultsOf clock lines)

/-- `mqtt_data.get("commands_sent", [])`. -/
def getCommands : MqttOut → List EntryM
  | MqttOut.unavailable => []
  | MqttOut.ok r => r.commands_sent

/-- `mqtt_data.get("status_messages", [])`. -/
def getStatuses : MqttOut → List EntryM
  | MqttOut.unavailable => []
  | MqttOut.ok r => r.status_messages

/-- `serial_data.get("esp_logs", ... empty map)`. -/
def getEspLogs : SerialOut → List (Str × List EntryS)
  | SerialOut.unavailable => []
  | SerialOut.ok r => r.esp_logs

/-- One correlation dict: command payload, command topic, matching status
entries, matching device-log (tag, message) pairs. -/
structure Correlation where
  command : Str
  topic : Str
  mqtt_responses : List EntryM
  serial_responses : List (Str × Str)
deriving DecidableEq

/-- The loop body of `correlate_command_responses` for one command.
The bus side keeps the statuses whose lower-cased payload contains the
lower-cased command payload, in observation order.  The device side takes
the first whitespace token of the command payload, lower-cased, as
keyword; `payload.split()[0]` raises IndexError when the payload has no
token (empty or all-whitespace payload), modelled by `none`. -/
def correlateOne (sts : List EntryM) (logs : List (Str × List EntryS))
    (cmd : EntryM) : Option Correlation :=
  let mqttR := sts.filter (fun st => occursIn (pyLower cmd.payload) (pyLower st.payload))
  match pySplit cmd.payload with
  | [] => none
  | tok :: _ =>
    let kw := pyLower tok
    let serialR := logs.foldr
      (fun p acc =>
        (p.2.filter (fun lg => occursIn kw (pyLower lg.message))).map
          (fun lg => (p.1, lg.message)) ++ acc) []
    some ⟨cmd.payload, cmd.topic, mqttR, serialR⟩

/-- The command loop of `correlate_command_responses`: one correlation per
command in observation order; an exception at any command aborts the whole
call (nothing is returned). -/
def correlateList (sts : List EntryM) (logs : List (Str × List EntryS)) :
    List EntryM → Option (List Correlation)
  | [] => some []
  | c :: cs =>
    match correlateOne sts logs c with
    | none => none
    | some corr =>
      match correlateList sts logs cs with
      | none => none
      | some rest => some (corr :: rest)

def correlate_command_responses (clock : Nat → Str)
    (serialLines mqttLines : Option (List Str)) : Option (List Correlation) :=
  let mqttData := analyze_mqtt_log clock mqttLines
  let serialData := analyze_serial_log serialLines
  correlateList (getStatuses mqttData) (getEspLogs serialData) (getCommands mqttData)

/-!
Serializable artifact of `generate_report` (the dict handed to
`json.dump`), modelled as a small JSON value type.  Key order follows the
source's dict literals.  The wall-clock readings taken by the report are
abstract inputs.
-/

inductive JVal where
  | jstr (s : Str)
  | jnum (n : Nat)
  | jarr (xs : List JVal)
  | jobj (fields : List (Str × JVal))

def jEntryS (e : EntryS) : JVal :=
  JVal.jobj [("timestamp".data, JVal.jstr e.timestamp),
             ("tag".data, JVal.jstr e.tag),
             ("message".data, JVal.jstr e.message)]

def jEntryM (e : EntryM) : JVal :=
  JVal.jobj [("topic".data, JVal.jstr e.topic),
             ("payload".data, JVal.jstr e.payload),
             ("timestamp".data, JVal.jstr e.timestamp)]

def jSerialOut : SerialOut → JVal
  | SerialOut.unavailable =>
      JVal.jobj [("error".data, JVal.jstr ("Serial log not found".data))]
  | SerialOut.ok r => JVal.jobj
      [("total_lines".data, JVal.jnum r.total_lines),
       ("errors".data, JVal.jarr (r.errors.map jEntryS)),
       ("warnings".data, JVal.jarr (r.warnings.map jEntryS)),
       ("info_messages".data, JVal.jarr (r.info_messages.map jEntryS)),
       ("esp_logs".data,
         JVal.jobj (r.esp_logs.map (fun p => (p.1, JVal.jarr (p.2.map jEntryS))))),
       ("reboots".data, JVal.jarr (r.reboots.map JVal.jstr)),
       ("timestamps".data, JVal.jarr (r.timestamps.map JVal.jstr))]

def jMqttOut : MqttOut → JVal
  | MqttOut.unavailable =>
      JVal.jobj [("error".data, JVal.jstr ("MQTT log not found".data))]
  | MqttOut.ok r => JVal.jobj
      [("total_messages".data, JVal.jnum r.total_messages),
       ("topics".data,
         JVal.jobj (r.topics.map (fun p => (p.1, JVal.jarr (p.2.map jEntryM))))),
       ("commands_sent".data, JVal.jarr (r.commands_sent.map jEntryM)),
       ("responses_received".data, JVal.jarr (r.responses_received.map jEntryM)),
       ("home_assistant_configs".data, JVal.jnum r.home_assistant_configs),
       ("status_messages".data, JVal.jarr (r.status_messages.map jEntryM))]

def jPair (p : Str × Str) : JVal :=
  JVal.jobj [("tag".data, JVal.jstr p.1), ("message".data, JVal.jstr p.2)]

def jCorrelation (c : Correlation) : JVal :=
  JVal.jobj [("command".data, JVal.jstr c.command),
             ("topic".data, JVal.jstr c.topic),
             ("mqtt_responses".data, JVal.jarr (c.mqtt_responses.map jEntryM)),
             ("serial_responses".data, JVal.jarr (c.serial_responses.map jPair))]

/-- The dict `json.dump`ed by `generate_report`.  `clockR` supplies the
wall-clock readings of the report's own bus-log analysis, `clockC` those
of the analysis redone inside `correlate_command_responses`, `genTime`
the final `datetime.now().isoformat()`.  An exception inside the
correlator aborts the report (no artifact). -/
def report_artifact (clockR clockC : Nat → Str) (genTime : Str)
    (serialLines mqttLines : Option (List Str)) : Option JVal :=
  match correlate_command_responses clockC serialLines mqttLines with
  | none => none
  | some corrs => some (JVal.jobj
      [("serial_analysis".data, jSerialOut (analyze_serial_log serialLines)),
       ("mqtt_analysis".data, jMqttOut (analyze_mqtt_log clockR mqttLines)),
       ("correlations".data, JVal.jarr (corrs.map jCorrelation)),
       ("timestamp".data, JVal.jstr genTime)])

/-- Top-level field names of a JSON object. -/
def topKeys : JVal → List Str
  | JVal.jobj fs => fs.map Prod.fst
  | _ => []

def jLookup (key : Str) : List (Str × JVal) → Option JVal
  | [] => none
  | (k, v) :: rest => if k = key then some v else jLookup key rest

/-- The array stored under the `correlations` field. -/
def corrArray : JVal → List JVal
  | JVal.jobj fs =>
    match jLookup ("correlations".data) fs with
    | some (JVal.jarr xs) => xs
    | _ => []
  | _ => []

/-!
Instrumented variants used to state the aggregation claims: the per-tag
index enriched with the matched severity code (C8), and the flat list of
parsed bus entries in observation order (C10).  Each is proved to project
onto the source-faithful fold.
-/

def mapVals {α β : Type} (f : α → β) (m : List (Str × List α)) :
    List (Str × List β) :=
  m.map (fun p => (p.1, p.2.map f))

/-- Per-tag index fold that also records the matched severity code. -/
def stepL (m : List (Str × List (Char × EntryS))) (line : Str) :
    List (Str × List (Char × EntryS)) :=
  match espSearch line with
  | some (lv, ts, tag, msg0) => addToTagMap m tag (lv, ⟨ts, tag, pyStrip msg0⟩)
  | none => m

def espLogsLOf (lines : List Str) : List (Str × List (Char × EntryS)) :=
  lines.foldl stepL []

/-- Topic contains the command-channel segment. -/
def cmdB (e : EntryM) : Bool := occursIn ("/command".data) e.topic

/-- Topic contains the status-channel segment. -/
def stB (e : EntryM) : Bool := occursIn ("/status".data) e.topic

/-- Topic contains the configuration-announcement namespace. -/
def haB (e : EntryM) : Bool := occursIn ("homeassistant/".data) e.topic

/-- Flat sequence of all parsed bus entries, in observation order. -/
def parsedStep (clock : Nat → Str) (s : List EntryM × Nat) (line : Str) :
    List EntryM × Nat :=
  if occursIn ("[MQTT]".data) line then
    match mqttSearch line with
    | some (topic, payload0) =>
      (s.1 ++ [⟨topic, pyStrip payload0, clock s.2⟩], s.2 + 1)
    | none => s
  else s

def parsedOf (clock : Nat → Str) (lines : List Str) : List EntryM :=
  (lines.foldl (parsedStep clock) ([], 0)).1

/-!
Scrubbing of wall-clock observation timestamps, used to state in what
sense repeated runs agree (C4): everything except the `timestamp` field of
bus entries is a function of the input lines alone.
-/

def scrubE (e : EntryM) : EntryM := ⟨e.topic, e.payload, []⟩

def scrubR (r : MqttResults) : MqttResults :=
  ⟨r.total_messages, mapVals scrubE r.topics, r.commands_sent.map scrubE,
   r.responses_received.map scrubE, r.home_assistant_configs,
   r.status_messages.map scrubE⟩

def scrubOut : MqttOut → MqttOut
  | MqttOut.unavailable => MqttOut.unavailable
  | MqttOut.ok r => MqttOut.ok (scrubR r)

def scrubCorr (c : Correlation) : Correlation :=
  ⟨c.command, c.topic, c.mqtt_responses.map scrubE, c.serial_responses⟩

/-!
Concrete inputs used by counterexamples and witnesses.
-/

def cmdW : EntryM := ⟨"wordclock/command".data, "status".data, []⟩

def stW : EntryM := ⟨"wordclock/status".data, "Status: OK, brightness=50".data, []⟩

def corrW : Correlation := ⟨"status".data, "wordclock/command".data, [stW], []⟩

def cexLinesC8 : List Str :=
  ["E (1) alpha: x".data, "E (2) beta: y".data, "E (3) alpha: z".data]

def artifactInW : List Str := ["[MQTT] x/command go".data]

def jW : JVal :=
  (report_artifact (fun _ => []) (fun _ => []) ("t".data) none
    (some artifactInW)).getD (JVal.jnum 0)

/-!
Closed facts: the code-bug evaluation for C1 and the counterexamples.
-/

/-- C1: the spec requires the correlator to derive the empty string as
device-side keyword for an empty/whitespace command payload and to be
total, but a bus line whose payload strips to the empty string makes
`cmd["payload"].split()[0]` raise IndexError (modelled by `none`): the
command exists yet the whole correlation aborts. -/
theorem C1_correlator_crashes_on_empty_payload :
    getCommands (analyze_mqtt_log (fun _ => [])
        (some ["[MQTT] a/command  ".data])) =
      [⟨"a/command".data, [], []⟩] ∧
    correlate_command_responses (fun _ => []) none
      (some ["[MQTT] a/command  ".data]) = none := by decide

/-- C2 counterexample: the structured-log class is `[EWID]`, so a `D`
line matches the grammar and produces a record that is added to the
component-tag index but to no severity partition; moreover the stored
message is the matched free text with flanking whitespace stripped, not
the verbatim remainder. -/
theorem C2_cex :
    espSearch ("D (7) nvs: storage init".data) =
      some ('D', "7".data, "nvs".data, "storage init".data) ∧
    (serialResultsOf [("D (7) nvs: storage init".data)]).errors = [] ∧
    (serialResultsOf [("D (7) nvs: storage init".data)]).warnings = [] ∧
    (serialResultsOf [("D (7) nvs: storage init".data)]).info_messages = [] ∧
    (serialResultsOf [("D (7) nvs: storage init".data)]).esp_logs =
      [("nvs".data, [⟨"7".data, "nvs".data, "storage init".data⟩])] ∧
    (serialResultsOf [("E (5) tg:  m ".data)]).errors =
      [⟨"5".data, "tg".data, "m".data⟩] := by decide

/-- C3 counterexample: the reboot-banner check runs on every line, not
only when the structured grammar fails; a line matching both contributes
a restart event AND an error entry AND a tag-index entry. -/
theorem C3_cex :
    (serialResultsOf ["E (9) main: Rebooting... now".data]).reboots =
      ["E (9) main: Rebooting... now".data] ∧
    (serialResultsOf ["E (9) main: Rebooting... now".data]).errors =
      [⟨"9".data, "main".data, "Rebooting... now".data⟩] ∧
    (serialResultsOf ["E (9) main: Rebooting... now".data]).esp_logs =
      [("main".data, [⟨"9".data, "main".data, "Rebooting... now".data⟩])] := by
  decide

/-- C4 counterexample: two runs on the same input lines, at different
wall-clock readings, produce different results — the BusRecord
`timestamp` fields are observation times, so repeated runs are not
bitwise identical. -/
theorem C4_cex :
    analyze_mqtt_log (fun _ => "t1".data)
        (some ["[MQTT] wordclock/status ok".data]) ≠
    analyze_mqtt_log (fun _ => "t2".data)
        (some ["[MQTT] wordclock/status ok".data]) := by decide

/-- C6 counterexample: a command whose payload strips to the empty string
exists in the bus summary, yet the correlator yields no correlation list
at all (IndexError), so it is not the case that every command yields a
correlation. -/
theorem C6_cex :
    getCommands (analyze_mqtt_log (fun _ => [])
        (some ["[MQTT] b/command \t".data])) ≠ [] ∧
    correlate_command_responses (fun _ => []) none
      (some ["[MQTT] b/command \t".data]) = none := by decide

/-- C7 counterexample: with the device log missing and a command whose
payload strips to empty, the claim requires the bus-side responses still
to be computed, but the correlator aborts. -/
theorem C7_cex :
    analyze_serial_log none = SerialOut.unavailable ∧
    getCommands (analyze_mqtt_log (fun _ => [])
        (some ["[MQTT] c/command  ".data])) ≠ [] ∧
    correlate_command_responses (fun _ => []) none
      (some ["[MQTT] c/command  ".data]) = none := by decide

/-- C8 counterexample: with errors interleaved across two tags, the
concatenation of the per-tag sequences (all of whose records here are
ERROR records, so filtering to ERROR is the identity) is a permutation of
the global errors list but not the same ordered sequence. -/
theorem C8_cex :
    (tagConcat (serialResultsOf cexLinesC8).esp_logs).Perm
      (serialResultsOf cexLinesC8).errors ∧
    tagConcat (serialResultsOf cexLinesC8).esp_logs ≠
      (serialResultsOf cexLinesC8).errors := by decide

/-- C9 counterexample: the serialized artifact's top-level field names
are `serial_analysis`, `mqtt_analysis`, `correlations`, `timestamp` —
not the data model's `device_summary`, `bus_summary`, `correlations`,
`generated_at`. -/
theorem C9_cex :
    (report_artifact (fun _ => []) (fun _ => []) ("2025".data) none
        none).map topKeys =
      some ["serial_analysis".data, "mqtt_analysis".data,
            "correlations".data, "timestamp".data] ∧
    (report_artifact (fun _ => []) (fun _ => []) ("2025".data) none
        none).map topKeys ≠
      some ["device_summary".data, "bus_summary".data,
            "correlations".data, "generated_at".data] := by decide

/-!
Helper lemmas about the insertion-ordered multimap.
-/

lemma tagConcat_nil {α : Type} : tagConcat ([] : List (Str × List α)) = [] := rfl

lemma tagConcat_cons {α : Type} (p : Str × List α) (m : List (Str × List α)) :
    tagConcat (p :: m) = p.2 ++ tagConcat m := rfl

lemma addToTagMap_mapVals {α β : Type} (f : α → β) :
    ∀ (m : List (Str × List α)) (t : Str) (e : α),
      mapVals f (addToTagMap m t e) = addToTagMap (mapVals f m) t (f e) := by
  intro m t e
  induction m with
  | nil => simp [addToTagMap, mapVals]
  | cons p rest ih =>
    obtain ⟨t1, es⟩ := p
    by_cases h : t1 = t
    · subst h
      simp [addToTagMap, mapVals]
    · simp only [addToTagMap, mapVals, List.map_cons, if_neg h] at ih ⊢
      simpa using ih

lemma tagConcat_addToTagMap {α : Type} (m : List (Str × List α)) (t : Str) (e : α) :
    (tagConcat (addToTagMap m t e)).Perm (tagConcat m ++ [e]) := by
  induction m with
  | nil => simp [addToTagMap, tagConcat]
  | cons p rest ih =>
    obtain ⟨t1, es⟩ := p
    by_cases h : t1 = t
    · subst h
      simp only [addToTagMap, if_pos rfl]
      have hp : (([e] : List α) ++ tagConcat rest).Perm (tagConcat rest ++ [e]) :=
        List.perm_append_comm
      simpa [tagConcat_cons, List.append_assoc] using List.Perm.append_left es hp
    · simp only [addToTagMap, if_neg h]
      simpa [tagConcat_cons, List.append_assoc] using ih.append_left es

/-!
C8: the per-tag index projects onto the severity-enriched index, and the
ERROR-filtered concatenation of the enriched index is a permutation of
the global errors list.
-/

lemma sevUpdate_esp_logs (r : SerialResults) (lv : Char) (e : EntryS) :
    (sevUpdate r lv e).esp_logs = r.esp_logs := by
  unfold sevUpdate; split <;> (try split) <;> (try split) <;> rfl

lemma sevUpdate_errors (r : SerialResults) (lv : Char) (e : EntryS) :
    (sevUpdate r lv e).errors =
      if lv = 'E' then r.errors ++ [e] else r.errors := by
  unfold sevUpdate
  by_cases hE : lv = 'E'
  · simp [hE]
  · simp only [if_neg hE]; split <;> (try split) <;> rfl

lemma sevUpdate_warnings (r : SerialResults) (lv : Char) (e : EntryS) :
    (sevUpdate r lv e).warnings =
      if lv = 'W' then r.warnings ++ [e] else r.warnings := by
  unfold sevUpdate
  by_cases hE : lv = 'E'
  · simp [hE]
  · by_cases hW : lv = 'W'
    · simp [hE, hW]
    · simp only [if_neg hE, if_neg hW]; split <;> simp_all

lemma sevUpdate_info (r : SerialResults) (lv : Char) (e : EntryS) :
    (sevUpdate r lv e).info_messages =
      if lv = 'I' then r.info_messages ++ [e] else r.info_messages := by
  unfold sevUpdate
  by_cases hE : lv = 'E'
  · simp [hE]
  · by_cases hW : lv = 'W'
    · simp [hE, hW]
    · simp only [if_neg hE, if_neg hW]; split <;> simp_all

lemma serialReboot_esp_logs (r : SerialResults) (line : Str) :
    (serialReboot r line).esp_logs = r.esp_logs := by
  unfold serialReboot; split <;> rfl

lemma serialReboot_errors (r : SerialResults) (line : Str) :
    (serialReboot r line).errors = r.errors := by
  unfold serialReboot; split <;> rfl

lemma serialReboot_warnings (r : SerialResults) (line : Str) :
    (serialReboot r line).warnings = r.warnings := by
  unfold serialReboot; split <;> rfl

lemma serialReboot_info (r : SerialResults) (line : Str) :
    (serialReboot r line).info_messages = r.info_messages := by
  unfold serialReboot; split <;> rfl

lemma serialReboot_reboots (r : SerialResults) (line : Str) :
    (serialReboot r line).reboots =
      if occursIn ("ESP-ROM:esp32".data) line || occursIn ("Rebooting...".data) line
      then r.reboots ++ [pyStrip line] else r.reboots := by
  unfold serialReboot; split <;> simp_all

lemma serialStep_esp_logs (r : SerialResults)
    (m : List (Str × List (Char × EntryS))) (line : Str)
    (h : r.esp_logs = mapVals Prod.snd m) :
    (serialStep r line).esp_logs = mapVals Prod.snd (stepL m line) := by
  unfold serialStep stepL
  rw [serialReboot_esp_logs]
  unfold serialClassify
  cases hs : espSearch line with
  | none => simpa [hs] using h
  | some q =>
    obtain ⟨lv, ts, tag, msg⟩ := q
    have hmap := addToTagMap_mapVals (Prod.snd : Char × EntryS → EntryS) m tag
      (lv, ⟨ts, tag, pyStrip msg⟩)
    simp only [hs]
    show addToTagMap (sevUpdate _ lv _).esp_logs tag _ = _
    rw [sevUpdate_esp_logs]
    show addToTagMap r.esp_logs tag _ = _
    rw [h, ← hmap]

lemma serialStep_errors (r : SerialResults) (line : Str) :
    (serialStep r line).errors =
      match espSearch line with
      | some (lv, ts, tag, msg) =>
          if lv = 'E' then r.errors ++ [⟨ts, tag, pyStrip msg⟩] else r.errors
      | none => r.errors := by
  unfold serialStep
  rw [serialReboot_errors]
  unfold serialClassify
  cases hs : espSearch line with
  | none => simp [hs]
  | some q =>
    obtain ⟨lv, ts, tag, msg⟩ := q
    simp only [hs]
    show (sevUpdate _ lv _).errors = _
    rw [sevUpdate_errors]

lemma stepL_err_perm (r : SerialResults)
    (m : List (Str × List (Char × EntryS))) (line : Str)
    (h2 : (((tagConcat m).filter (fun p => p.1 == 'E')).map Prod.snd).Perm r.errors) :
    (((tagConcat (stepL m line)).filter (fun p => p.1 == 'E')).map Prod.snd).Perm
      (serialStep r line).errors := by
  rw [serialStep_errors]
  unfold stepL
  cases hs : espSearch line with
  | none => simpa [hs] using h2
  | some q =>
    obtain ⟨lv, ts, tag, msg⟩ := q
    simp only [hs]
    have hperm := tagConcat_addToTagMap m tag (lv, (⟨ts, tag, pyStrip msg⟩ : EntryS))
    have hflt := hperm.filter (fun p => p.1 == 'E')
    have hmap := hflt.map (Prod.snd : Char × EntryS → EntryS)
    refine hmap.trans ?_
    by_cases hE : lv = 'E'
    · subst hE
      simp only [List.filter_append, List.filter_cons, List.filter_nil]
      simp only [List.map_append, if_pos rfl]
      simpa using h2.append_right [(⟨ts, tag, pyStrip msg⟩ : EntryS)]
    · have : (('E' : Char) == lv) = false := by
        simp [hE]
        intro hc
        exact absurd hc.symm hE
      simp only [List.filter_append, List.filter_cons, List.filter_nil]
      have hempty : ((lv, (⟨ts, tag, pyStrip msg⟩ : EntryS)).1 == 'E') = false := by
        simpa using hE
      rw [hempty]
      simpa [hE] using h2

lemma serialFold_inv (lines : List Str) :
    ∀ (r : SerialResults) (m : List (Str × List (Char × EntryS))),
    r.esp_logs = mapVals Prod.snd m →
    (((tagConcat m).filter (fun p => p.1 == 'E')).map Prod.snd).Perm r.errors →
    ((lines.foldl serialStep r).esp_logs =
        mapVals Prod.snd (lines.foldl stepL m) ∧
      (((tagConcat (lines.foldl stepL m)).filter
          (fun p => p.1 == 'E')).map Prod.snd).Perm
        (lines.foldl serialStep r).errors) := by
  induction lines with
  | nil => intro r m h1 h2; exact ⟨h1, h2⟩
  | cons line rest ih =>
    intro r m h1 h2
    simp only [List.foldl_cons]
    exact ih (serialStep r line) (stepL m line)
      (serialStep_esp_logs r m line h1) (stepL_err_perm r m line h2)

lemma sevUpdate_reboots (r : SerialResults) (lv : Char) (e : EntryS) :
    (sevUpdate r lv e).reboots = r.reboots := by
  unfold sevUpdate; split <;> (try split) <;> (try split) <;> rfl

lemma serialClassify_reboots (r : SerialResults) (line : Str) :
    (serialClassify r line).reboots = r.reboots := by
  unfold serialClassify
  cases hs : espSearch line with
  | none => rfl
  | some q =>
    obtain ⟨lv, ts, tag, msg⟩ := q
    simp only [hs]
    exact sevUpdate_reboots _ lv _

/-- C8 (amended): the code's per-tag index is the severity-forgetting
projection of the enriched index, and concatenating the enriched index's
per-tag sequences and filtering to the records whose matched severity
code is E yields the global errors list up to permutation — a multiset
equality, not sequence equality (see the counterexample for the ordered
version). -/
theorem C8_amended (lines : List Str) :
    (serialResultsOf lines).esp_logs = mapVals Prod.snd (espLogsLOf lines) ∧
    (((tagConcat (espLogsLOf lines)).filter (fun p => p.1 == 'E')).map
        Prod.snd).Perm (serialResultsOf lines).errors :=
  serialFold_inv lines serialInit [] rfl (by simp [tagConcat, serialInit])

/-- C3 (amended): the restart-banner check runs for every line; a banner
line always contributes the stripped line to the reboots sequence, and
contributes nothing to the severity partitions or the tag index provided
it does not also match the structured grammar. -/
theorem C3_amended (r : SerialResults) (line : Str)
    (h : occursIn ("ESP-ROM:esp32".data) line = true ∨
         occursIn ("Rebooting...".data) line = true) :
    (serialStep r line).reboots = r.reboots ++ [pyStrip line] ∧
    (espSearch line = none →
      (serialStep r line).errors = r.errors ∧
      (serialStep r line).warnings = r.warnings ∧
      (serialStep r line).info_messages = r.info_messages ∧
      (serialStep r line).esp_logs = r.esp_logs) := by
  constructor
  · unfold serialStep
    rw [serialReboot_reboots]
    have hcond : (occursIn ("ESP-ROM:esp32".data) line ||
        occursIn ("Rebooting...".data) line) = true := by
      rcases h with h | h <;> simp [h]
    rw [if_pos hcond, serialClassify_reboots]
  · intro hs
    unfold serialStep
    refine ⟨?_, ?_, ?_, ?_⟩ <;>
      simp [serialReboot_errors, serialReboot_warnings, serialReboot_info,
        serialReboot_esp_logs, serialClassify, hs]

/-- Witness for C3: a concrete boot-banner line appends itself (stripped)
to the reboots sequence of the empty summary and leaves everything else
empty. -/
theorem C3_witness :
    (serialStep serialInit ("ESP-ROM:esp32s3-20210327".data)).reboots =
      serialInit.reboots ++ [pyStrip ("ESP-ROM:esp32s3-20210327".data)] ∧
    (serialStep serialInit ("ESP-ROM:esp32s3-20210327".data)).errors =
      serialInit.errors :=
  ⟨(C3_amended serialInit ("ESP-ROM:esp32s3-20210327".data)
      (Or.inl (by decide))).1,
   ((C3_amended serialInit ("ESP-ROM:esp32s3-20210327".data)
      (Or.inl (by decide))).2 (by decide)).1⟩
lemma espMatchHere_decomp {l : Str} {lv : Char} {ts tag msg : Str}
    (h : espMatchHere l = some (lv, ts, tag, msg)) :
    (lv = 'E' ∨ lv = 'W' ∨ lv = 'I' ∨ lv = 'D') ∧
    ∃ post, l = lv :: ' ' :: '(' ::
      (ts ++ ')' :: ' ' :: (tag ++ ':' :: ' ' :: (msg ++ post))) := by
  unfold espMatchHere at h
  split at h
  case _ c rest =>
    split at h
    case isFalse => exact absurd h (by simp)
    case isTrue hcls =>
      by_cases hds : rest.takeWhile pyDigit = []
      · rw [if_pos hds] at h; exact absurd h (by simp)
      · rw [if_neg hds] at h
        split at h
        case _ rest3 heq2 =>
          by_cases hws : rest3.takeWhile pyWord = []
          · rw [if_pos hws] at h; exact absurd h (by simp)
          · rw [if_neg hws] at h
            split at h
            case _ rest5 heq4 =>
              by_cases hms : rest5.takeWhile (fun d => decide (d ≠ '\n')) = []
              · rw [if_pos hms] at h; exact absurd h (by simp)
              · rw [if_neg hms] at h
                simp only [Option.some.injEq, Prod.mk.injEq] at h
                obtain ⟨hc, hts, htag, hmsg⟩ := h
                subst hc hts htag hmsg
                refine ⟨hcls, List.dropWhile (fun d => decide (d ≠ '\n')) rest5, ?_⟩
                have e1 := List.takeWhile_append_dropWhile pyDigit rest
                have e2 := List.takeWhile_append_dropWhile pyWord rest3
                have e3 := List.takeWhile_append_dropWhile
                  (fun d => decide (d ≠ '\n')) rest5
                rw [heq2] at e1
                rw [heq4] at e2
                conv_lhs => rw [← e1, ← e2, ← e3]
            case _ => exact absurd h (by simp)
        case _ => exact absurd h (by simp)
  case _ => exact absurd h (by simp)

lemma espSearch_decomp {l : Str} {lv : Char} {ts tag msg : Str}
    (h : espSearch l = some (lv, ts, tag, msg)) :
    (lv = 'E' ∨ lv = 'W' ∨ lv = 'I' ∨ lv = 'D') ∧
    ∃ pre post, l = pre ++ lv :: ' ' :: '(' ::
      (ts ++ ')' :: ' ' :: (tag ++ ':' :: ' ' :: (msg ++ post))) := by
  induction l with
  | nil => exact absurd h (by simp [espSearch])
  | cons c t ih =>
    rw [espSearch] at h
    cases hm : espMatchHere (c :: t) with
    | some q =>
      rw [hm] at h
      have hq : espMatchHere (c :: t) = some (lv, ts, tag, msg) := by
        rw [hm]; exact h
      obtain ⟨hclass, post, hdec⟩ := espMatchHere_decomp hq
      exact ⟨hclass, [], post, hdec⟩
    | none =>
      rw [hm] at h
      obtain ⟨hclass, pre, post, hdec⟩ := ih h
      exact ⟨hclass, c :: pre, post, by rw [hdec]; rfl⟩

/-- C2 (amended): every line matching the structured grammar carries one
of the codes E, W, I, D (the regex class is `[EWID]`, so D matches too);
the matched timestamp, tag and message groups are literal contiguous
segments of the line, in grammar shape; the produced record stores the
tag verbatim and the message with flanking whitespace stripped, and it is
placed in the severity partition matching its code — E, W or I — while a
D record is added only to the per-tag index. -/
theorem C2_amended (line : Str) (lv : Char) (ts tag msg : Str)
    (h : espSearch line = some (lv, ts, tag, msg)) :
    (lv = 'E' ∨ lv = 'W' ∨ lv = 'I' ∨ lv = 'D') ∧
    (∃ pre post, line = pre ++ lv :: ' ' :: '(' ::
        (ts ++ ')' :: ' ' :: (tag ++ ':' :: ' ' :: (msg ++ post)))) ∧
    (∀ r : SerialResults,
      (serialClassify r line).errors =
        (if lv = 'E' then r.errors ++ [⟨ts, tag, pyStrip msg⟩] else r.errors) ∧
      (serialClassify r line).warnings =
        (if lv = 'W' then r.warnings ++ [⟨ts, tag, pyStrip msg⟩]
         else r.warnings) ∧
      (serialClassify r line).info_messages =
        (if lv = 'I' then r.info_messages ++ [⟨ts, tag, pyStrip msg⟩]
         else r.info_messages) ∧
      (serialClassify r line).esp_logs =
        addToTagMap r.esp_logs tag ⟨ts, tag, pyStrip msg⟩) := by
  obtain ⟨hclass, hdec⟩ := espSearch_decomp h
  refine ⟨hclass, hdec, ?_⟩
  intro r
  unfold serialClassify
  simp only [h]
  refine ⟨?_, ?_, ?_, ?_⟩
  · exact sevUpdate_errors r lv _
  · exact sevUpdate_warnings r lv _
  · exact sevUpdate_info r lv _
  · show addToTagMap (sevUpdate r lv _).esp_logs tag _ = _
    rw [sevUpdate_esp_logs]

/-- Witness for C2: the spec's scenario line lands in the errors
partition with tag `wifi` and message `connection lost`. -/
theorem C2_witness :
    (serialClassify serialInit ("E (1234) wifi: connection lost".data)).errors =
      [⟨"1234".data, "wifi".data, "connection lost".data⟩] := by
  have h := (C2_amended ("E (1234) wifi: connection lost".data) 'E'
    ("1234".data) ("wifi".data) ("connection lost".data) (by decide)).2.2
    serialInit
  rw [h.1]
  decide

/-- C5: bus-side correlation is exactly case-insensitive substring
containment of the command payload in the status payload — membership is
equivalent to containment, observation order is preserved (the responses
form a sublist of the status sequence), and multiplicity is preserved
with no de-duplication. -/
theorem C5_confirmed (sts : List EntryM) (logs : List (Str × List EntryS))
    (cmd : EntryM) (corr : Correlation)
    (h : correlateOne sts logs cmd = some corr) :
    (∀ st, st ∈ corr.mqtt_responses ↔
       st ∈ sts ∧ occursIn (pyLower cmd.payload) (pyLower st.payload) = true) ∧
    corr.mqtt_responses.Sublist sts ∧
    (∀ st, corr.mqtt_responses.count st =
       if occursIn (pyLower cmd.payload) (pyLower st.payload) = true
       then sts.count st else 0) := by
  have hr : corr.mqtt_responses =
      sts.filter (fun st => occursIn (pyLower cmd.payload) (pyLower st.payload)) := by
    unfold correlateOne at h
    split at h
    · exact absurd h (by simp)
    · simp only [Option.some.injEq] at h
      rw [← h]
  rw [hr]
  refine ⟨?_, List.filter_sublist _, ?_⟩
  · intro st
    simp [List.mem_filter]
  · intro st
    by_cases hp : occursIn (pyLower cmd.payload) (pyLower st.payload) = true
    · rw [if_pos hp]
      exact List.count_filter hp
    · rw [if_neg hp, List.count_eq_zero]
      intro hmem
      exact hp ((List.mem_filter.mp hmem).2)

/-- Witness for C5: the spec's scenario — command payload `status`
matches status payload `Status: OK, brightness=50`. -/
theorem C5_witness :
    corrW.mqtt_responses.Sublist [stW] ∧ stW ∈ corrW.mqtt_responses := by
  have h := C5_confirmed [stW] [] cmdW corrW (by decide)
  exact ⟨h.2.1, (h.1 stW).mpr ⟨by decide, by decide⟩⟩

lemma correlateList_total (sts : List EntryM) (logs : List (Str × List EntryS)) :
    ∀ (cmds : List EntryM), (∀ cmd ∈ cmds, pySplit cmd.payload ≠ []) →
    ∃ corrs, correlateList sts logs cmds = some corrs ∧
      corrs.length = cmds.length ∧
      ∀ i (hi : i < corrs.length) (hj : i < cmds.length),
        (corrs.get ⟨i, hi⟩).command = (cmds.get ⟨i, hj⟩).payload ∧
        (corrs.get ⟨i, hi⟩).topic = (cmds.get ⟨i, hj⟩).topic ∧
        (corrs.get ⟨i, hi⟩).mqtt_responses =
          sts.filter (fun st =>
            occursIn (pyLower ((cmds.get ⟨i, hj⟩).payload))
              (pyLower st.payload)) := by
  intro cmds
  induction cmds with
  | nil =>
    intro _
    refine ⟨[], rfl, rfl, ?_⟩
    intro i hi hj
    simp at hi
  | cons c cs ih =>
    intro hall
    have hc := hall c (by simp)
    obtain ⟨corrs, hcl, hlen, hidx⟩ := ih (fun cmd hm => hall cmd (by simp [hm]))
    have hone : ∃ sr, correlateOne sts logs c = some ⟨c.payload, c.topic,
        sts.filter (fun st => occursIn (pyLower c.payload) (pyLower st.payload)),
        sr⟩ := by
      unfold correlateOne
      cases hsp : pySplit c.payload with
      | nil => exact absurd hsp hc
      | cons tok toks => exact ⟨_, rfl⟩
    obtain ⟨sr, hone⟩ := hone
    refine ⟨⟨c.payload, c.topic,
      sts.filter (fun st => occursIn (pyLower c.payload) (pyLower st.payload)),
      sr⟩ :: corrs, ?_, by simp [hlen], ?_⟩
    · unfold correlateList
      rw [hone, hcl]
    · intro i hi hj
      cases i with
      | zero => exact ⟨rfl, rfl, rfl⟩
      | succ n => exact hidx n (by simpa using hi) (by simpa using hj)

/-- C6 (amended): provided every command payload contains at least one
non-whitespace token (otherwise the correlator raises, see the
counterexample), the correlator produces exactly one correlation per
command, in command-observation order, a command with no matches
receiving empty response sequences rather than being an error or
omitted. -/
theorem C6_amended (clock : Nat → Str) (sl ml : Option (List Str))
    (h : ∀ cmd ∈ getCommands (analyze_mqtt_log clock ml),
      pySplit cmd.payload ≠ []) :
    ∃ corrs, correlate_command_responses clock sl ml = some corrs ∧
      corrs.length = (getCommands (analyze_mqtt_log clock ml)).length ∧
      ∀ i (hi : i < corrs.length)
        (hj : i < (getCommands (analyze_mqtt_log clock ml)).length),
        (corrs.get ⟨i, hi⟩).command =
          ((getCommands (analyze_mqtt_log clock ml)).get ⟨i, hj⟩).payload ∧
        (corrs.get ⟨i, hi⟩).topic =
          ((getCommands (analyze_mqtt_log clock ml)).get ⟨i, hj⟩).topic ∧
        (corrs.get ⟨i, hi⟩).mqtt_responses =
          (getStatuses (analyze_mqtt_log clock ml)).filter (fun st =>
            occursIn (pyLower (((getCommands (analyze_mqtt_log clock ml)).get
              ⟨i, hj⟩).payload)) (pyLower st.payload)) :=
  correlateList_total (getStatuses (analyze_mqtt_log clock ml))
    (getEspLogs (analyze_serial_log sl))
    (getCommands (analyze_mqtt_log clock ml)) h

/-- Witness for C6: a command with a nonempty payload and no matching
status or device record still yields a correlation list. -/
theorem C6_witness :
    (correlate_command_responses (fun _ => []) none
      (some ["[MQTT] d/command ping".data])).isSome = true := by
  obtain ⟨corrs, hc, -, -⟩ := C6_amended (fun _ => []) none
    (some ["[MQTT] d/command ping".data]) (by decide)
  rw [hc]; rfl

lemma correlateList_noLogs (sts : List EntryM) :
    ∀ (cmds : List EntryM) (corrs : List Correlation),
    correlateList sts [] cmds = some corrs →
    corrs.length = cmds.length ∧ ∀ corr ∈ corrs, corr.serial_responses = [] := by
  intro cmds
  induction cmds with
  | nil =>
    intro corrs h
    simp only [correlateList, Option.some.injEq] at h
    subst h
    exact ⟨rfl, by simp⟩
  | cons c cs ih =>
    intro corrs h
    unfold correlateList at h
    cases ho : correlateOne sts [] c with
    | none => rw [ho] at h; exact absurd h (by simp)
    | some corr =>
      rw [ho] at h
      cases hl : correlateList sts [] cs with
      | none => rw [hl] at h; exact absurd h (by simp)
      | some rest =>
        rw [hl] at h
        simp only [Option.some.injEq] at h
        subst h
        obtain ⟨hlen, hall⟩ := ih rest hl
        have hsr : corr.serial_responses = [] := by
          unfold correlateOne at ho
          split at ho
          · exact absurd ho (by simp)
          · simp only [Option.some.injEq] at ho
            rw [← ho]
            rfl
        refine ⟨by simp [hlen], ?_⟩
        intro x hx
        rcases List.mem_cons.mp hx with h1 | h2
        · rw [h1]; exact hsr
        · exact hall x h2

/-- C7 (amended): a missing device stream yields the explicit
`unavailable` summary; a missing bus stream yields an empty correlation
list, not a failure; and when the device stream is missing but the bus
stream is available and produced a correlation list, it has one
correlation per command and every device-side response sequence is empty
(bus-side responses are still computed). -/
theorem C7_amended (clock : Nat → Str) (sl : Option (List Str)) (ml : List Str)
    (corrs : List Correlation)
    (h : correlate_command_responses clock none (some ml) = some corrs) :
    analyze_serial_log none = SerialOut.unavailable ∧
    correlate_command_responses clock sl none = some [] ∧
    corrs.length = (getCommands (analyze_mqtt_log clock (some ml))).length ∧
    ∀ corr ∈ corrs, corr.serial_responses = [] := by
  have h2 := correlateList_noLogs (getStatuses (analyze_mqtt_log clock (some ml)))
    (getCommands (analyze_mqtt_log clock (some ml))) corrs h
  exact ⟨rfl, rfl, h2.1, h2.2⟩

/-- Witness for C7: with the bus stream missing, the correlator returns
the empty correlation list rather than failing. -/
theorem C7_witness :
    correlate_command_responses (fun _ => []) (some []) none = some [] := by
  have h := C7_amended (fun _ => []) (some []) ["[MQTT] e/command hi".data]
    [⟨"hi".data, "e/command".data, [], []⟩] (by decide)
  exact h.2.1

/-- C9 (amended): the serialized artifact's top-level fields are
`serial_analysis`, `mqtt_analysis`, `correlations`, `timestamp`, and
each serialized correlation has fields `command`, `topic`,
`mqtt_responses`, `serial_responses` — the names by which the source
builds the dicts, not the data-model names the spec lists. -/
theorem C9_amended (cR cC : Nat → Str) (g : Str) (sl ml : Option (List Str))
    (j : JVal) (h : report_artifact cR cC g sl ml = some j) :
    topKeys j = ["serial_analysis".data, "mqtt_analysis".data,
      "correlations".data, "timestamp".data] ∧
    ∀ c ∈ corrArray j, topKeys c = ["command".data, "topic".data,
      "mqtt_responses".data, "serial_responses".data] := by
  unfold report_artifact at h
  cases hc : correlate_command_responses cC sl ml with
  | none => rw [hc] at h; exact absurd h (by simp)
  | some corrs =>
    rw [hc] at h
    simp only [Option.some.injEq] at h
    subst h
    constructor
    · rfl
    · intro c hcmem
      have harr : corrArray (JVal.jobj
          [("serial_analysis".data, jSerialOut (analyze_serial_log sl)),
           ("mqtt_analysis".data, jMqttOut (analyze_mqtt_log cR ml)),
           ("correlations".data, JVal.jarr (corrs.map jCorrelation)),
           ("timestamp".data, JVal.jstr g)]) = corrs.map jCorrelation := by
        rfl
      rw [harr] at hcmem
      obtain ⟨corr, -, hcor⟩ := List.mem_map.mp hcmem
      rw [← hcor]
      rfl

/-- Witness for C9: a concrete run whose artifact exhibits the
source's field names. -/
theorem C9_witness :
    topKeys jW = ["serial_analysis".data, "mqtt_analysis".data,
      "correlations".data, "timestamp".data] :=
  (C9_amended (fun _ => []) (fun _ => []) ("t".data) none
    (some artifactInW) jW rfl).1

lemma cmdB_mk (t p ts : Str) : cmdB ⟨t, p, ts⟩ = occursIn ("/command".data) t := rfl

lemma stB_mk (t p ts : Str) : stB ⟨t, p, ts⟩ = occursIn ("/status".data) t := rfl

lemma haB_mk (t p ts : Str) : haB ⟨t, p, ts⟩ = occursIn ("homeassistant/".data) t := rfl

lemma mqttCategorize_commands (r : MqttResults) (e : EntryM) :
    (mqttCategorize r e).commands_sent =
      if cmdB e then r.commands_sent ++ [e] else r.commands_sent := by
  unfold mqttCategorize cmdB
  split <;> (try split) <;> (try split) <;> simp_all

lemma mqttCategorize_statuses (r : MqttResults) (e : EntryM) :
    (mqttCategorize r e).status_messages =
      if !cmdB e && stB e then r.status_messages ++ [e]
      else r.status_messages := by
  unfold mqttCategorize cmdB stB
  split <;> (try split) <;> (try split) <;> simp_all

lemma mqttCategorize_configs (r : MqttResults) (e : EntryM) :
    (mqttCategorize r e).home_assistant_configs =
      if !cmdB e && !stB e && haB e then r.home_assistant_configs + 1
      else r.home_assistant_configs := by
  unfold mqttCategorize cmdB stB haB
  split <;> (try split) <;> (try split) <;> simp_all

lemma mqttCategorize_topics (r : MqttResults) (e : EntryM) :
    (mqttCategorize r e).topics = r.topics := by
  unfold mqttCategorize
  split <;> (try split) <;> (try split) <;> rfl

lemma mqttCategorize_total (r : MqttResults) (e : EntryM) :
    (mqttCategorize r e).total_messages = r.total_messages := by
  unfold mqttCategorize
  split <;> (try split) <;> (try split) <;> rfl

lemma mqttCategorize_responses (r : MqttResults) (e : EntryM) :
    (mqttCategorize r e).responses_received = r.responses_received := by
  unfold mqttCategorize
  split <;> (try split) <;> (try split) <;> rfl

lemma mqttStep_cat (clock : Nat → Str) (line : Str) (r : MqttResults) (k : Nat)
    (p : List EntryM)
    (h1 : r.commands_sent = p.filter cmdB)
    (h2 : r.status_messages = p.filter (fun e => !cmdB e && stB e))
    (h3 : r.home_assistant_configs =
      (p.filter (fun e => !cmdB e && !stB e && haB e)).length)
    (h4 : (tagConcat r.topics).Perm p) :
    (mqttStep clock (r, k) line).1.commands_sent =
      (parsedStep clock (p, k) line).1.filter cmdB ∧
    (mqttStep clock (r, k) line).1.status_messages =
      (parsedStep clock (p, k) line).1.filter (fun e => !cmdB e && stB e) ∧
    (mqttStep clock (r, k) line).1.home_assistant_configs =
      ((parsedStep clock (p, k) line).1.filter
        (fun e => !cmdB e && !stB e && haB e)).length ∧
    (tagConcat (mqttStep clock (r, k) line).1.topics).Perm
      (parsedStep clock (p, k) line).1 ∧
    (mqttStep clock (r, k) line).2 = (parsedStep clock (p, k) line).2 := by
  unfold mqttStep parsedStep
  by_cases hmq : occursIn ("[MQTT]".data) line = true
  · rw [if_pos hmq, if_pos hmq]
    cases hs : mqttSearch line with
    | none => simp only [hs]; exact ⟨h1, h2, h3, h4, trivial⟩
    | some q =>
      obtain ⟨topic, pay⟩ := q
      simp only [hs]
      refine ⟨?_, ?_, ?_, ?_, trivial⟩
      · rw [mqttCategorize_commands, h1, List.filter_append]
        by_cases hcmd : cmdB (⟨topic, pyStrip pay, clock k⟩ : EntryM) = true <;>
          simp [hcmd]
      · rw [mqttCategorize_statuses, h2, List.filter_append]
        by_cases hcmd : cmdB (⟨topic, pyStrip pay, clock k⟩ : EntryM) = true <;>
          by_cases hst : stB (⟨topic, pyStrip pay, clock k⟩ : EntryM) = true <;>
          simp [hcmd, hst]
      · rw [mqttCategorize_configs, h3, List.filter_append]
        by_cases hcmd : cmdB (⟨topic, pyStrip pay, clock k⟩ : EntryM) = true <;>
          by_cases hst : stB (⟨topic, pyStrip pay, clock k⟩ : EntryM) = true <;>
          by_cases hha : haB (⟨topic, pyStrip pay, clock k⟩ : EntryM) = true <;>
          simp [hcmd, hst, hha]
      · rw [mqttCategorize_topics]
        refine (tagConcat_addToTagMap r.topics topic _).trans ?_
        exact h4.append_right _
  · rw [if_neg hmq, if_neg hmq]
    exact ⟨h1, h2, h3, h4, rfl⟩

lemma mqttFold_cat (clock : Nat → Str) (lines : List Str) :
    ∀ (r : MqttResults) (k : Nat) (p : List EntryM),
    r.commands_sent = p.filter cmdB →
    r.status_messages = p.filter (fun e => !cmdB e && stB e) →
    r.home_assistant_configs =
      (p.filter (fun e => !cmdB e && !stB e && haB e)).length →
    (tagConcat r.topics).Perm p →
    ((lines.foldl (mqttStep clock) (r, k)).1.commands_sent =
        (lines.foldl (parsedStep clock) (p, k)).1.filter cmdB ∧
      (lines.foldl (mqttStep clock) (r, k)).1.status_messages =
        (lines.foldl (parsedStep clock) (p, k)).1.filter
          (fun e => !cmdB e && stB e) ∧
      (lines.foldl (mqttStep clock) (r, k)).1.home_assistant_configs =
        ((lines.foldl (parsedStep clock) (p, k)).1.filter
          (fun e => !cmdB e && !stB e && haB e)).length ∧
      (tagConcat (lines.foldl (mqttStep clock) (r, k)).1.topics).Perm
        (lines.foldl (parsedStep clock) (p, k)).1) := by
  induction lines with
  | nil => intro r k p h1 h2 h3 h4; exact ⟨h1, h2, h3, h4⟩
  | cons line rest ih =>
    intro r k p h1 h2 h3 h4
    obtain ⟨g1, g2, g3, g4, g5⟩ := mqttStep_cat clock line r k p h1 h2 h3 h4
    simp only [List.foldl_cons]
    have hred : (parsedStep clock (p, k) line) =
        ((parsedStep clock (p, k) line).1, (mqttStep clock (r, k) line).2) := by
      rw [g5]
    rw [hred]
    exact ih (mqttStep clock (r, k) line).1 (mqttStep clock (r, k) line).2
      (parsedStep clock (p, k) line).1 g1 g2 g3 g4

/-- C10: bus-record classification is mutually exclusive with fixed
priority.  Relative to the flat sequence of parsed entries (onto which
the topic index projects as a permutation): the command subsequence is
exactly the entries whose topic contains `/command`; the status
subsequence is exactly those containing `/status` but not `/command`;
the configuration counter counts exactly those containing
`homeassistant/` but neither `/command` nor `/status`; and no entry is
in both the command and status subsequences. -/
theorem C10_confirmed (clock : Nat → Str) (lines : List Str) :
    (mqttResultsOf clock lines).commands_sent =
      (parsedOf clock lines).filter cmdB ∧
    (mqttResultsOf clock lines).status_messages =
      (parsedOf clock lines).filter (fun e => !cmdB e && stB e) ∧
    (mqttResultsOf clock lines).home_assistant_configs =
      ((parsedOf clock lines).filter
        (fun e => !cmdB e && !stB e && haB e)).length ∧
    (tagConcat (mqttResultsOf clock lines).topics).Perm
      (parsedOf clock lines) ∧
    (∀ e ∈ (mqttResultsOf clock lines).commands_sent, cmdB e = true) ∧
    (∀ e ∈ (mqttResultsOf clock lines).status_messages,
      cmdB e = false ∧ stB e = true) ∧
    (∀ e, ¬ (e ∈ (mqttResultsOf clock lines).commands_sent ∧
      e ∈ (mqttResultsOf clock lines).status_messages)) := by
  obtain ⟨g1, g2, g3, g4⟩ := mqttFold_cat clock lines mqttInit 0 [] rfl rfl rfl
    (by simp [mqttInit, tagConcat])
  have g1x : (mqttResultsOf clock lines).commands_sent =
      (parsedOf clock lines).filter cmdB := g1
  have g2x : (mqttResultsOf clock lines).status_messages =
      (parsedOf clock lines).filter (fun e => !cmdB e && stB e) := g2
  refine ⟨g1, g2, g3, g4, ?_, ?_, ?_⟩
  · intro e he
    rw [g1x] at he
    exact (List.mem_filter.mp he).2
  · intro e he
    rw [g2x] at he
    have h2 := (List.mem_filter.mp he).2
    simp only [Bool.and_eq_true, Bool.not_eq_true'] at h2
    exact h2
  · intro e he
    obtain ⟨hc, hs⟩ := he
    rw [g1x] at hc
    rw [g2x] at hs
    have h1 := (List.mem_filter.mp hc).2
    have h2 := (List.mem_filter.mp hs).2
    simp only [Bool.and_eq_true, Bool.not_eq_true'] at h2
    rw [h1] at h2
    exact absurd h2.1 (by simp)

/-!
C4: determinism up to observation timestamps.
-/

lemma mqttStep_scrub (c1 c2 : Nat → Str) (line : Str) (r1 r2 : MqttResults)
    (k : Nat) (h : scrubR r1 = scrubR r2) :
    scrubR (mqttStep c1 (r1, k) line).1 = scrubR (mqttStep c2 (r2, k) line).1 ∧
    (mqttStep c1 (r1, k) line).2 = (mqttStep c2 (r2, k) line).2 := by
  have h6 := h
  unfold scrubR at h6
  simp only [MqttResults.mk.injEq] at h6
  obtain ⟨ht, htp, hcm, hrr, hha, hst⟩ := h6
  unfold mqttStep
  by_cases hmq : occursIn ("[MQTT]".data) line = true
  · rw [if_pos hmq, if_pos hmq]
    cases hs : mqttSearch line with
    | none =>
      simp only [hs]
      refine ⟨?_, trivial⟩
      unfold scrubR
      simp only [MqttResults.mk.injEq]
      exact ⟨by rw [ht], htp, hcm, hrr, hha, hst⟩
    | some q =>
      obtain ⟨topic, pay⟩ := q
      simp only [hs]
      refine ⟨?_, trivial⟩
      unfold scrubR
      simp only [MqttResults.mk.injEq, mqttCategorize_total,
        mqttCategorize_topics, mqttCategorize_commands,
        mqttCategorize_statuses, mqttCategorize_configs,
        mqttCategorize_responses, cmdB_mk, stB_mk, haB_mk]
      refine ⟨by rw [ht], ?_, ?_, hrr, ?_, ?_⟩
      · rw [addToTagMap_mapVals scrubE, addToTagMap_mapVals scrubE, htp]
        rfl
      · by_cases hc : occursIn ("/command".data) topic = true <;>
          simp [hc, List.map_append, hcm, scrubE]
      · by_cases hc : occursIn ("/command".data) topic = true <;>
          by_cases hsb : occursIn ("/status".data) topic = true <;>
          simp [hc, hsb, hha]
      · by_cases hc : occursIn ("/command".data) topic = true <;>
          by_cases hsb : occursIn ("/status".data) topic = true <;>
          simp [hc, hsb, List.map_append, hst, scrubE]
  · rw [if_neg hmq, if_neg hmq]
    exact ⟨h, rfl⟩

lemma mqttFold_scrub (c1 c2 : Nat → Str) (lines : List Str) :
    ∀ (r1 r2 : MqttResults) (k : Nat), scrubR r1 = scrubR r2 →
    scrubR (lines.foldl (mqttStep c1) (r1, k)).1 =
      scrubR (lines.foldl (mqttStep c2) (r2, k)).1 := by
  induction lines with
  | nil => intro r1 r2 k h; exact h
  | cons line rest ih =>
    intro r1 r2 k h
    obtain ⟨g1, g2⟩ := mqttStep_scrub c1 c2 line r1 r2 k h
    simp only [List.foldl_cons]
    have hred : (mqttStep c2 (r2, k) line) =
        ((mqttStep c2 (r2, k) line).1, (mqttStep c1 (r1, k) line).2) := by
      rw [g2]
    rw [hred]
    exact ih (mqttStep c1 (r1, k) line).1 (mqttStep c2 (r2, k) line).1
      (mqttStep c1 (r1, k) line).2 g1

lemma analyze_mqtt_scrub (c1 c2 : Nat → Str) (ml : Option (List Str)) :
    scrubOut (analyze_mqtt_log c1 ml) = scrubOut (analyze_mqtt_log c2 ml) := by
  cases ml with
  | none => rfl
  | some lines =>
    exact congrArg MqttOut.ok (mqttFold_scrub c1 c2 lines mqttInit mqttInit 0 rfl)

lemma filter_map_scrubE (kw : Str) (l : List EntryM) :
    (l.filter (fun st => occursIn kw (pyLower st.payload))).map scrubE =
    (l.map scrubE).filter (fun st => occursIn kw (pyLower st.payload)) := by
  induction l with
  | nil => rfl
  | cons a t iht =>
    simp only [List.map_cons, List.filter_cons]
    have hpe : occursIn kw (pyLower (scrubE a).payload) =
        occursIn kw (pyLower a.payload) := rfl
    by_cases hq : occursIn kw (pyLower a.payload) = true <;>
      simp [hq, hpe, iht]

lemma correlateOne_scrub (sts1 sts2 : List EntryM)
    (logs : List (Str × List EntryS)) (cmd1 cmd2 : EntryM)
    (hs : sts1.map scrubE = sts2.map scrubE) (hc : scrubE cmd1 = scrubE cmd2) :
    Option.map scrubCorr (correlateOne sts1 logs cmd1) =
    Option.map scrubCorr (correlateOne sts2 logs cmd2) := by
  have hc2 := hc
  unfold scrubE at hc2
  simp only [EntryM.mk.injEq] at hc2
  obtain ⟨htop, hpay, -⟩ := hc2
  unfold correlateOne
  rw [hpay, htop]
  cases hsp : pySplit cmd2.payload with
  | nil => simp [hsp]
  | cons tok toks =>
    simp only [hsp, Option.map_some', Option.some.injEq]
    unfold scrubCorr
    simp only [Correlation.mk.injEq]
    refine ⟨trivial, trivial, ?_, trivial⟩
    rw [filter_map_scrubE, filter_map_scrubE, hs]


lemma correlateList_scrub (logs : List (Str × List EntryS)) :
    ∀ (cmds1 cmds2 : List EntryM) (sts1 sts2 : List EntryM),
    sts1.map scrubE = sts2.map scrubE →
    cmds1.map scrubE = cmds2.map scrubE →
    Option.map (List.map scrubCorr) (correlateList sts1 logs cmds1) =
    Option.map (List.map scrubCorr) (correlateList sts2 logs cmds2) := by
  intro cmds1
  induction cmds1 with
  | nil =>
    intro cmds2 sts1 sts2 hs hc
    have : cmds2 = [] := by
      cases cmds2 with
      | nil => rfl
      | cons a t => simp at hc
    subst this
    rfl
  | cons c1 t1 ih =>
    intro cmds2 sts1 sts2 hs hc
    cases cmds2 with
    | nil => simp at hc
    | cons c2 t2 =>
      simp only [List.map_cons, List.cons.injEq] at hc
      obtain ⟨hc1, hct⟩ := hc
      have hone := correlateOne_scrub sts1 sts2 logs c1 c2 hs hc1
      have hrest := ih t2 sts1 sts2 hs hct
      unfold correlateList
      cases ho1 : correlateOne sts1 logs c1 with
      | none =>
        rw [ho1] at hone
        cases ho2 : correlateOne sts2 logs c2 with
        | none => rfl
        | some x => rw [ho2] at hone; simp at hone
      | some x1 =>
        rw [ho1] at hone
        cases ho2 : correlateOne sts2 logs c2 with
        | none => rw [ho2] at hone; simp at hone
        | some x2 =>
          rw [ho2] at hone
          simp only [Option.map_some', Option.some.injEq] at hone
          cases hl1 : correlateList sts1 logs t1 with
          | none =>
            rw [hl1] at hrest
            cases hl2 : correlateList sts2 logs t2 with
            | none => rfl
            | some y => rw [hl2] at hrest; simp at hrest
          | some y1 =>
            rw [hl1] at hrest
            cases hl2 : correlateList sts2 logs t2 with
            | none => rw [hl2] at hrest; simp at hrest
            | some y2 =>
              rw [hl2] at hrest
              simp only [Option.map_some', Option.some.injEq] at hrest
              simp only [Option.map_some', Option.some.injEq, List.map_cons]
              rw [hone, hrest]

/-- C4 (amended): each analysis run is a function of the input lines and
the observation clock alone, and the clock influences nothing but the
`timestamp` fields of bus entries: two runs at arbitrary clocks agree
exactly after scrubbing those fields, both on the bus summary and on the
correlation output (the device summary takes no clock at all).  The
counterexample shows runs at different clocks are not literally
identical. -/
theorem C4_amended (c1 c2 : Nat → Str) (sl ml : Option (List Str)) :
    scrubOut (analyze_mqtt_log c1 ml) = scrubOut (analyze_mqtt_log c2 ml) ∧
    Option.map (List.map scrubCorr) (correlate_command_responses c1 sl ml) =
      Option.map (List.map scrubCorr)
        (correlate_command_responses c2 sl ml) := by
  refine ⟨analyze_mqtt_scrub c1 c2 ml, ?_⟩
  have hsc : (getStatuses (analyze_mqtt_log c1 ml)).map scrubE =
      (getStatuses (analyze_mqtt_log c2 ml)).map scrubE := by
    cases ml with
    | none => rfl
    | some lines =>
      have h := analyze_mqtt_scrub c1 c2 (some lines)
      have h2 : scrubR (mqttResultsOf c1 lines) =
          scrubR (mqttResultsOf c2 lines) := by
        have h3 : scrubOut (MqttOut.ok (mqttResultsOf c1 lines)) =
            scrubOut (MqttOut.ok (mqttResultsOf c2 lines)) := h
        simpa [scrubOut] using h3
      unfold scrubR at h2
      simp only [MqttResults.mk.injEq] at h2
      exact h2.2.2.2.2.2
  have hcm : (getCommands (analyze_mqtt_log c1 ml)).map scrubE =
      (getCommands (analyze_mqtt_log c2 ml)).map scrubE := by
    cases ml with
    | none => rfl
    | some lines =>
      have h := analyze_mqtt_scrub c1 c2 (some lines)
      have h2 : scrubR (mqttResultsOf c1 lines) =
          scrubR (mqttResultsOf c2 lines) := by
        have h3 : scrubOut (MqttOut.ok (mqttResultsOf c1 lines)) =
            scrubOut (MqttOut.ok (mqttResultsOf c2 lines)) := h
        simpa [scrubOut] using h3
      unfold scrubR at h2
      simp only [MqttResults.mk.injEq] at h2
      exact h2.2.2.1
  exact correlateList_scrub (getEspLogs (analyze_serial_log sl))
    (getCommands (analyze_mqtt_log c1 ml)) (getCommands (analyze_mqtt_log c2 ml))
    (getStatuses (analyze_mqtt_log c1 ml)) (getStatuses (analyze_mqtt_log c2 ml))
    hsc hcm
